import Mathlib

/-!
Verification of the mirrored buffer cache (`src/include/buffer_cache/mirrored.hpp`).

The cache composes five policies (serializer, buffer allocator, page map, page
replacement, writeback).  The composition logic — `allocate`, `acquire`,
`release`, `aio_complete`, the transaction API and the `aio_context` record —
is in the source file and is embedded below verbatim in structure.  The five
policies themselves are external collaborators; where a claim depends on one,
its contract is modelled from the specification (each such definition says so
in its doc comment).

Machine state is explicit: a `CacheState` record threaded through every
operation.  Event queues and opaque pointers are modelled as natural numbers
(with 0 standing for the null pointer).
-/

namespace MirroredCache

/-- Block identifiers (`serializer_t::block_id_t`), opaque; modelled as `Nat`. -/
abbrev block_id_t := Nat

/-- Event-queue identity (`event_queue_t *`); 0 models the null pointer. -/
abbrev event_queue_t := Nat

/-- In the source a transaction is just the event queue pointer
(`typedef event_queue_t transaction_t`). -/
abbrev transaction_t := event_queue_t

/-- A fixed-size block buffer.  `id` is the allocator-assigned identity of the
memory region, `size` its length, `data` its contents. -/
structure buffer_t where
  id : Nat
  size : Nat
  data : List Nat
deriving DecidableEq

/-- The `aio_context` record from the source: caller state, target block id,
and (debug builds) the event queue the operation was issued on. -/
structure aio_context_t where
  user_state : Nat
  block_id : block_id_t
  event_queue : event_queue_t
deriving DecidableEq

/-- The composed mutable state of `mirrored_cache_t` and its policy bases:
the serializer's block size and id counter, the allocator's handle counter and
set of live (not yet freed) buffers, the page map, the page-replacement pin
counts, the in-flight asynchronous reads, and the writeback hand-off queue. -/
structure CacheState where
  block_size : Nat
  next_block_id : Nat
  next_buf_id : Nat
  page_map : List (block_id_t × buffer_t)
  pins : block_id_t → Nat
  reads : List (aio_context_t × buffer_t)
  live_bufs : List Nat
  dirty_queue : List (event_queue_t × block_id_t × buffer_t × Nat)

/-- Modelled from the spec: the Page Map contract `find(BlockId) -> buffer |
absent` (spec 4.3), a map lookup. -/
def page_map.find (m : List (block_id_t × buffer_t)) (k : block_id_t) :
    Option buffer_t :=
  (m.find? (fun e => e.1 == k)).map (fun e => e.2)

/-- Modelled from the spec: the Page Map contract `set(BlockId, buffer)`
(spec 4.3), a map update replacing any existing association for the key. -/
def page_map.set (m : List (block_id_t × buffer_t)) (k : block_id_t)
    (v : buffer_t) : List (block_id_t × buffer_t) :=
  (k, v) :: m.filter (fun e => !(e.1 == k))

/-- Modelled from the spec: the Page Replacement pin contract (spec 4.4, 3
PinState) — increment the per-block pin count. -/
def page_repl.pin (p : block_id_t → Nat) (b : block_id_t) : block_id_t → Nat :=
  fun b2 => if b2 = b then p b2 + 1 else p b2

/-- Modelled from the spec: the Page Replacement unpin contract (spec 4.4, 3
PinState) — decrement the per-block pin count. -/
def page_repl.unpin (p : block_id_t → Nat) (b : block_id_t) :
    block_id_t → Nat :=
  fun b2 => if b2 = b then p b2 - 1 else p b2

/-- Modelled from the spec: the Buffer Allocator contract `malloc(size) ->
buffer` (spec 4.2), returning a fresh buffer of the requested size, with
zero-filled contents (spec 4.1 step 2).  The new buffer becomes live. -/
def buffer_alloc.malloc (s : CacheState) (size : Nat) :
    buffer_t × CacheState :=
  (⟨s.next_buf_id, size, List.replicate size 0⟩,
   { s with next_buf_id := s.next_buf_id + 1,
            live_bufs := s.next_buf_id :: s.live_bufs })

/-- Modelled from the spec: the serializer contract `gen_block_id() -> BlockId`
(spec 6), producing a fresh identifier. -/
def serializer.gen_block_id (s : CacheState) : block_id_t × CacheState :=
  (s.next_block_id, { s with next_block_id := s.next_block_id + 1 })

/-- Modelled from the spec: the serializer contract `async_read(BlockId,
destination_buffer, AIOContext)` (spec 6); the read becomes in-flight, keyed
by its AIOContext. -/
def do_read (s : CacheState) (block_id : block_id_t) (buf : buffer_t)
    (ctx : aio_context_t) : CacheState :=
  { s with reads := (ctx, buf) :: s.reads }

/-- Embeds `mirrored_cache_t::allocate`: generate a fresh block id (written to
the out parameter, here the second component of the result), malloc a block of
the serializer's block size, register it in the page map, pin it, return it. -/
def allocate (s : CacheState) (tm : transaction_t) :
    buffer_t × block_id_t × CacheState :=
  let g := serializer.gen_block_id s
  let block_id := g.1
  let m := buffer_alloc.malloc g.2 g.2.block_size
  let block := m.1
  let s2 := m.2
  (block, block_id,
   { s2 with page_map := page_map.set s2.page_map block_id block,
             pins := page_repl.pin s2.pins block_id })

/-- Embeds `mirrored_cache_t::acquire`: look the block id up in the page map;
on a miss, malloc a fresh buffer, build an `aio_context` capturing the caller
state, the block id and the current event queue, issue the read, and return
the (null) lookup result; on a hit, pin the block and return its buffer. -/
def acquire (s : CacheState) (tm : transaction_t) (block_id : block_id_t)
    (state : Nat) : Option buffer_t × CacheState :=
  match page_map.find s.page_map block_id with
  | none =>
    let m := buffer_alloc.malloc s s.block_size
    let ctx : aio_context_t :=
      { user_state := state, block_id := block_id, event_queue := tm }
    (none, do_read m.2 block_id m.1 ctx)
  | some block =>
    (some block, { s with pins := page_repl.pin s.pins block_id })

/-- Embeds `mirrored_cache_t::release`.  The Writeback policy is external:
`mark_dirty` is modelled from the spec (spec 4.5) as recording the dirty block
for flushing and returning a possibly-new block id, given here by the policy
parameter `md`.  Clean release unpins and keeps the block id. -/
def release (s : CacheState) (tm : transaction_t) (block_id : block_id_t)
    (block : buffer_t) (dirty : Bool) (state : Nat)
    (md : block_id_t → block_id_t) : block_id_t × CacheState :=
  if dirty then
    (md block_id,
     { s with dirty_queue := (tm, block_id, block, state) :: s.dirty_queue })
  else
    (block_id, { s with pins := page_repl.unpin s.pins block_id })

/-- Embeds `mirrored_cache_t::aio_complete`: destroy the context (an in-flight
read keyed by it is no longer in flight); on a write completion unpin the
context's block id; on a read completion register the buffer in the page map
under the context's block id and pin it. -/
def aio_complete (s : CacheState) (ctx : aio_context_t) (block : buffer_t)
    (written : Bool) : CacheState :=
  let block_id := ctx.block_id
  let s1 := { s with reads := s.reads.filter (fun e => !(e == (ctx, block))) }
  if written then
    { s1 with pins := page_repl.unpin s1.pins block_id }
  else
    { s1 with page_map := page_map.set s1.page_map block_id block,
              pins := page_repl.pin s1.pins block_id }

/-- Embeds the debug assertion of `mirrored_cache_t::end_transaction`:
`assert(transaction == get_cpu_context()->event_queue)` — true exactly when
the transaction's event queue is the current one. -/
def end_transaction_check (cur : event_queue_t) (transaction : transaction_t) :
    Bool :=
  transaction == cur

/-- Embeds the debug check of `mirrored_cache_t::aio_complete` as written in
the source: `assert(ctx->event_queue = get_cpu_context()->event_queue)` uses
a single `=`, an assignment.  It stores the current event queue into the
context and asserts the assigned value, so it passes exactly when the current
queue pointer is non-null, regardless of the context's recorded queue.  Result:
the mutated context and whether the assertion passes. -/
def aio_complete_check (cur : event_queue_t) (ctx : aio_context_t) :
    aio_context_t × Bool :=
  ({ ctx with event_queue := cur }, cur != 0)

/-- Number of page-map entries for a given block id. -/
def countKey (m : List (block_id_t × buffer_t)) (k : block_id_t) : Nat :=
  (m.filter (fun e => e.1 == k)).length

/-- All live buffers currently associated with a block id: the resident
page-map entries plus the destination buffers of in-flight reads for it. -/
def buffersFor (s : CacheState) (b : block_id_t) : List buffer_t :=
  (s.page_map.filter (fun e => e.1 == b)).map (fun e => e.2) ++
  (s.reads.filter (fun e => e.1.block_id == b)).map (fun e => e.2)

/-- One cache event, for whole-trace statements. -/
inductive Event where
  | alloc (tm : transaction_t)
  | acq (tm : transaction_t) (block_id : block_id_t) (state : Nat)
  | rel (tm : transaction_t) (block_id : block_id_t) (block : buffer_t)
        (dirty : Bool) (state : Nat) (md : block_id_t → block_id_t)
  | complete (ctx : aio_context_t) (block : buffer_t) (written : Bool)

/-- Execute one event. -/
def step (s : CacheState) : Event → CacheState
  | .alloc tm => (allocate s tm).2.2
  | .acq tm b st => (acquire s tm b st).2
  | .rel tm b blk d st md => (release s tm b blk d st md).2
  | .complete ctx blk w => aio_complete s ctx blk w

/-- Execute a trace of events. -/
def run (s : CacheState) (es : List Event) : CacheState :=
  es.foldl step s

/-- The pin-count effect of one event on block `b`, executed at state `s`:
`allocate` pins the freshly generated id; a resident `acquire` pins its id;
a clean `release` unpins; a write completion unpins the context's id; a read
completion pins it. -/
def pinEffect (s : CacheState) (e : Event) (b : block_id_t) : Int :=
  match e with
  | .alloc _ => if s.next_block_id = b then 1 else 0
  | .acq _ bid _ =>
      if bid = b ∧ (page_map.find s.page_map bid).isSome = true then 1 else 0
  | .rel _ bid _ dirty _ _ => if bid = b ∧ dirty = false then -1 else 0
  | .complete ctx _ written =>
      if ctx.block_id = b then (if written then -1 else 1) else 0

/-- Net pin-count effect of a trace on block `b`. -/
def netPin (b : block_id_t) : CacheState → List Event → Int
  | _, [] => 0
  | s, e :: es => pinEffect s e b + netPin b (step s e) es

/-- A trace never unpins block `b` below zero: every event whose pin effect on
`b` is a decrement runs in a state where `b` is pinned. -/
def noUnderflow (b : block_id_t) : CacheState → List Event → Bool
  | _, [] => true
  | s, e :: es =>
      (if pinEffect s e b = -1 then decide (0 < s.pins b) else true) &&
      noUnderflow b (step s e) es

/-- The empty cache: nothing resident, nothing pinned, nothing in flight. -/
def initState (bs : Nat) : CacheState :=
  { block_size := bs, next_block_id := 0, next_buf_id := 0, page_map := [],
    pins := fun _ => 0, reads := [], live_bufs := [], dirty_queue := [] }

/-- A concrete buffer, used to build witness states. -/
def buf0 : buffer_t := ⟨0, 4, List.replicate 4 0⟩

/-- A concrete state with `buf0` resident under block id 7 and unpinned. -/
def sRes : CacheState := { initState 4 with page_map := [(7, buf0)] }

/-- A concrete balanced trace for block 7: acquire the resident block, then
release it clean. -/
def trace0 : List Event := [.acq 1 7 0, .rel 1 7 buf0 false 0 (fun b => b)]

/-! ## Page-map model lemmas -/

theorem find_set_same (m : List (block_id_t × buffer_t)) (k : block_id_t)
    (v : buffer_t) : page_map.find (page_map.set m k v) k = some v := by
  simp [page_map.find, page_map.set]

theorem find_filter_ne (m : List (block_id_t × buffer_t)) (k k' : block_id_t)
    (h : k' ≠ k) :
    (m.filter (fun e => !(e.1 == k))).find? (fun e => e.1 == k') =
      m.find? (fun e => e.1 == k') := by
  induction m with
  | nil => rfl
  | cons a m ih =>
    cases hak : (a.1 == k) with
    | true =>
      have hak2 : a.1 = k := beq_iff_eq.mp hak
      have hne : (a.1 == k') = false := by
        rw [hak2]
        exact beq_eq_false_iff_ne.mpr (Ne.symm h)
      simp [List.filter_cons, hak, List.find?_cons, hne, ih]
    | false =>
      cases hak' : (a.1 == k') with
      | true => simp [List.filter_cons, hak, List.find?_cons, hak']
      | false => simp [List.filter_cons, hak, List.find?_cons, hak', ih]

theorem find_set_other (m : List (block_id_t × buffer_t)) (k k' : block_id_t)
    (v : buffer_t) (h : k' ≠ k) :
    page_map.find (page_map.set m k v) k' = page_map.find m k' := by
  have hk : (k == k') = false := by
    simp
    exact fun hk => h hk.symm
  simp [page_map.find, page_map.set, hk, find_filter_ne m k k' h]

theorem countKey_set_same (m : List (block_id_t × buffer_t)) (k : block_id_t)
    (v : buffer_t) : countKey (page_map.set m k v) k = 1 := by
  simp [countKey, page_map.set, List.filter_filter]

theorem mem_of_find (m : List (block_id_t × buffer_t)) (k : block_id_t)
    (v : buffer_t) (h : page_map.find m k = some v) : (k, v) ∈ m := by
  simp only [page_map.find, Option.map_eq_some'] at h
  obtain ⟨e, he, hv⟩ := h
  have hmem := List.mem_of_find?_eq_some he
  have hp := List.find?_some he
  simp at hp
  have : e = (k, v) := by
    cases e
    simp_all
  rwa [this] at hmem

/-- Filtering out a non-member changes nothing. -/
theorem filter_ne_of_not_mem (l : List (aio_context_t × buffer_t))
    (x : aio_context_t × buffer_t)
    (h : x ∉ l) : l.filter (fun e => !(e == x)) = l := by
  apply List.filter_eq_self.mpr
  intro a ha
  have hax : a ≠ x := fun heq => h (heq ▸ ha)
  simp [hax]

/-! ## Claim theorems -/

/-- Claim C2: release with dirty = false unpins the block and returns the
input block id unchanged; release with dirty = true hands the block to
Writeback mark_dirty (recording it for flushing), leaves every pin count
untouched (the block remains pinned), and returns whatever block id
mark_dirty returns, which may differ from the input. -/
theorem release_clean_dirty_spec (s : CacheState) (tm : transaction_t)
    (bid : block_id_t) (blk : buffer_t) (st : Nat)
    (md : block_id_t → block_id_t) :
    release s tm bid blk false st md =
      (bid, { s with pins := page_repl.unpin s.pins bid }) ∧
    release s tm bid blk true st md =
      (md bid,
       { s with dirty_queue := (tm, bid, blk, st) :: s.dirty_queue }) ∧
    (release s tm bid blk true st md).2.pins = s.pins := by
  refine ⟨rfl, rfl, rfl⟩

/-- Claim C5: for a block id with a resident buffer in the page map, acquire
pins it and returns the mapped buffer synchronously, issuing no read and
creating no AIOContext: the only state change is the incremented pin count. -/
theorem acquire_hit_spec (s : CacheState) (tm : transaction_t)
    (bid : block_id_t) (st : Nat) (buf : buffer_t)
    (h : page_map.find s.page_map bid = some buf) :
    acquire s tm bid st =
      (some buf, { s with pins := page_repl.pin s.pins bid }) ∧
    (acquire s tm bid st).2.reads = s.reads ∧
    (acquire s tm bid st).2.page_map = s.page_map ∧
    (acquire s tm bid st).2.live_bufs = s.live_bufs ∧
    (acquire s tm bid st).2.pins bid = s.pins bid + 1 := by
  simp [acquire, h, page_repl.pin]

/-- Witness for C5 at a concrete resident state. -/
theorem acquire_hit_inst :
    page_map.find sRes.page_map 7 = some buf0 ∧
    (acquire sRes 2 7 5 =
      (some buf0, { sRes with pins := page_repl.pin sRes.pins 7 }) ∧
     (acquire sRes 2 7 5).2.reads = sRes.reads ∧
     (acquire sRes 2 7 5).2.page_map = sRes.page_map ∧
     (acquire sRes 2 7 5).2.live_bufs = sRes.live_bufs ∧
     (acquire sRes 2 7 5).2.pins 7 = sRes.pins 7 + 1) :=
  ⟨by decide, acquire_hit_spec sRes 2 7 5 buf0 (by decide)⟩

/-- Claim C9: acquire on a block id absent from the page map returns none (the
pending outcome is exactly the null buffer) and leaves the page map and every
pin count unchanged; the freshly allocated buffer is not registered and the
block is not pinned until the read completion runs. -/
theorem acquire_miss_frame (s : CacheState) (tm : transaction_t)
    (bid : block_id_t) (st : Nat)
    (h : page_map.find s.page_map bid = none) :
    (acquire s tm bid st).1 = none ∧
    (acquire s tm bid st).2.page_map = s.page_map ∧
    (acquire s tm bid st).2.pins = s.pins := by
  simp [acquire, h, buffer_alloc.malloc, do_read]

/-- Witness for C9 at the empty cache. -/
theorem acquire_miss_frame_inst :
    page_map.find (initState 4).page_map 5 = none ∧
    ((acquire (initState 4) 2 5 9).1 = none ∧
     (acquire (initState 4) 2 5 9).2.page_map = (initState 4).page_map ∧
     (acquire (initState 4) 2 5 9).2.pins = (initState 4).pins) :=
  ⟨by decide, acquire_miss_frame (initState 4) 2 5 9 (by decide)⟩

/-- Claim C6 (code evidence): the end_transaction debug assertion passes on
the matching event queue and fails on a mismatched one; but the aio_complete
debug check — written in the source with an assignment rather than a
comparison — passes on a mismatched, non-null current queue and overwrites
the context's recorded queue, so the mismatch is not detected. -/
theorem assert_context_behaviour :
    end_transaction_check 2 2 = true ∧
    end_transaction_check 2 1 = false ∧
    (aio_complete_check 2 ⟨0, 0, 1⟩).2 = true ∧
    (aio_complete_check 2 ⟨0, 0, 1⟩).1.event_queue = 2 := by
  decide

/-- Claim C8 (code evidence): from the empty cache, two acquires of the same
absent block id while the first read is still in flight allocate two live
buffers destined for that block id and issue two reads — a second live
buffer for a block id that already has one, and a duplicated read. -/
theorem double_acquire_two_live_buffers :
    (buffersFor (acquire (acquire (initState 4) 1 7 0).2 1 7 1).2 7).length
      = 2 ∧
    (acquire (acquire (initState 4) 1 7 0).2 1 7 1).2.reads.length = 2 ∧
    (acquire (acquire (initState 4) 1 7 0).2 1 7 1).2.live_bufs.length = 2 := by
  decide

/-- Claim C1: acquire on a block id absent from the page map issues exactly
one asynchronous read — one new in-flight entry whose AIOContext captures the
caller state, the block id and the current execution context, and whose
destination is a freshly allocated buffer — and delivering the matching
aio_complete with written = false registers that buffer in the page map under
the block id and pins it exactly once, with exactly one page-map entry. -/
theorem acquire_miss_then_fill (s : CacheState) (tm : transaction_t)
    (bid : block_id_t) (st : Nat)
    (habs : page_map.find s.page_map bid = none)
    (hfresh : s.next_buf_id ∉ s.live_bufs)
    (hpin : s.pins bid = 0) :
    let buf : buffer_t := ⟨s.next_buf_id, s.block_size,
                           List.replicate s.block_size 0⟩
    let ctx : aio_context_t := ⟨st, bid, tm⟩
    let r := acquire s tm bid st
    let s2 := aio_complete r.2 ctx buf false
    r.1 = none ∧
    r.2.reads = (ctx, buf) :: s.reads ∧
    buf.id ∉ s.live_bufs ∧
    page_map.find s2.page_map bid = some buf ∧
    s2.pins bid = 1 ∧
    countKey s2.page_map bid = 1 := by
  simp [acquire, habs, buffer_alloc.malloc, do_read, aio_complete,
        page_repl.pin, find_set_same, countKey_set_same, hpin, hfresh]

/-- Witness for C1 at the empty cache. -/
theorem acquire_miss_then_fill_inst :
    page_map.find (initState 4).page_map 5 = none ∧
    (initState 4).next_buf_id ∉ (initState 4).live_bufs ∧
    (initState 4).pins 5 = 0 ∧
    (let buf : buffer_t := ⟨(initState 4).next_buf_id,
                            (initState 4).block_size,
                            List.replicate (initState 4).block_size 0⟩
     let ctx : aio_context_t := ⟨9, 5, 2⟩
     let r := acquire (initState 4) 2 5 9
     let s2 := aio_complete r.2 ctx buf false
     r.1 = none ∧
     r.2.reads = (ctx, buf) :: (initState 4).reads ∧
     buf.id ∉ (initState 4).live_bufs ∧
     page_map.find s2.page_map 5 = some buf ∧
     s2.pins 5 = 1 ∧
     countKey s2.page_map 5 = 1) :=
  ⟨by decide, by decide, by decide,
   acquire_miss_then_fill (initState 4) 2 5 9 (by decide) (by decide)
     (by decide)⟩

/-- Claim C4: allocate returns a zero-filled buffer of the serializer's block
size, stores the freshly generated block id into the out parameter, registers
the buffer in the page map under that id (exactly one entry), and pins it;
given a fresh allocator handle, no other page-map key maps to the returned
buffer, so the association is unique. -/
theorem allocate_spec (s : CacheState) (tm : transaction_t)
    (h : ∀ e ∈ s.page_map, e.2.id ≠ s.next_buf_id) :
    let r := allocate s tm
    r.1.data = List.replicate s.block_size 0 ∧
    r.1.size = s.block_size ∧
    r.2.1 = s.next_block_id ∧
    page_map.find r.2.2.page_map r.2.1 = some r.1 ∧
    countKey r.2.2.page_map r.2.1 = 1 ∧
    r.2.2.pins r.2.1 = s.pins r.2.1 + 1 ∧
    (∀ k, page_map.find r.2.2.page_map k = some r.1 → k = r.2.1) := by
  refine ⟨rfl, rfl, rfl, ?_, ?_, ?_, ?_⟩
  · exact find_set_same _ _ _
  · exact countKey_set_same _ _ _
  · simp [allocate, serializer.gen_block_id, buffer_alloc.malloc,
          page_repl.pin]
  · intro k hk
    by_cases hkb : k = s.next_block_id
    · exact hkb
    · exfalso
      have hother :
          page_map.find (allocate s tm).2.2.page_map k =
            page_map.find s.page_map k := by
        simp only [allocate, serializer.gen_block_id, buffer_alloc.malloc]
        exact find_set_other _ _ _ _ hkb
      rw [hother] at hk
      have hmem := mem_of_find _ _ _ hk
      exact h _ hmem rfl

/-- Witness for C4 at the empty cache. -/
theorem allocate_spec_inst :
    (∀ e ∈ (initState 4).page_map, e.2.id ≠ (initState 4).next_buf_id) ∧
    (let r := allocate (initState 4) 3
     r.1.data = List.replicate (initState 4).block_size 0 ∧
     r.1.size = (initState 4).block_size ∧
     r.2.1 = (initState 4).next_block_id ∧
     page_map.find r.2.2.page_map r.2.1 = some r.1 ∧
     countKey r.2.2.page_map r.2.1 = 1 ∧
     r.2.2.pins r.2.1 = (initState 4).pins r.2.1 + 1 ∧
     (∀ k, page_map.find r.2.2.page_map k = some r.1 → k = r.2.1)) :=
  ⟨by simp [initState], allocate_spec (initState 4) 3 (by simp [initState])⟩

/-- Claim C7: allocate then immediate clean release leaves the new block
resident with pin count zero, and a subsequent acquire of its id returns the
same buffer synchronously — no read is issued anywhere in the sequence — and
pins it again. -/
theorem allocate_release_acquire_roundtrip (s : CacheState)
    (tm : transaction_t) (st st2 : Nat) (md : block_id_t → block_id_t)
    (hpin : s.pins s.next_block_id = 0) :
    let r := allocate s tm
    let q := release r.2.2 tm r.2.1 r.1 false st md
    let a := acquire q.2 tm r.2.1 st2
    q.1 = r.2.1 ∧
    page_map.find q.2.page_map r.2.1 = some r.1 ∧
    q.2.pins r.2.1 = 0 ∧
    a.1 = some r.1 ∧
    a.2.reads = s.reads ∧
    a.2.pins r.2.1 = 1 := by
  simp [allocate, serializer.gen_block_id, buffer_alloc.malloc, release,
        acquire, find_set_same, page_repl.pin, page_repl.unpin, hpin]

/-- Witness for C7 at the empty cache. -/
theorem allocate_release_acquire_roundtrip_inst :
    (initState 4).pins (initState 4).next_block_id = 0 ∧
    (let r := allocate (initState 4) 2
     let q := release r.2.2 2 r.2.1 r.1 false 0 (fun b => b)
     let a := acquire q.2 2 r.2.1 1
     q.1 = r.2.1 ∧
     page_map.find q.2.page_map r.2.1 = some r.1 ∧
     q.2.pins r.2.1 = 0 ∧
     a.1 = some r.1 ∧
     a.2.reads = (initState 4).reads ∧
     a.2.pins r.2.1 = 1) :=
  ⟨by decide,
   allocate_release_acquire_roundtrip (initState 4) 2 0 1 (fun b => b)
     (by decide)⟩

/-- Claim C10: aio_complete with written = true destroys the context and
unpins its block id, changing nothing else — the page map, the in-flight
reads (the context was not one of them), the live buffers, the writeback
queue, the allocator and serializer counters, and every other block id's pin
count are unchanged; hence after a dirty release that returned a reassigned
block id, the buffer is still resident under the original id and the new id
has no page-map entry. -/
theorem aio_complete_write_frame :
    (∀ (s : CacheState) (ctx : aio_context_t) (blk : buffer_t),
      (ctx, blk) ∉ s.reads →
      (aio_complete s ctx blk true).page_map = s.page_map ∧
      (aio_complete s ctx blk true).reads = s.reads ∧
      (aio_complete s ctx blk true).live_bufs = s.live_bufs ∧
      (aio_complete s ctx blk true).dirty_queue = s.dirty_queue ∧
      (aio_complete s ctx blk true).next_buf_id = s.next_buf_id ∧
      (aio_complete s ctx blk true).next_block_id = s.next_block_id ∧
      (aio_complete s ctx blk true).pins ctx.block_id =
        s.pins ctx.block_id - 1 ∧
      (∀ b, b ≠ ctx.block_id →
        (aio_complete s ctx blk true).pins b = s.pins b)) ∧
    (∀ (s : CacheState) (q : transaction_t) (bid : block_id_t)
       (buf blk : buffer_t) (st wst : Nat) (wq : event_queue_t)
       (md : block_id_t → block_id_t),
      page_map.find s.page_map bid = some buf →
      md bid ≠ bid →
      page_map.find s.page_map (md bid) = none →
      page_map.find
        (aio_complete (release s q bid blk true st md).2
          ⟨wst, md bid, wq⟩ blk true).page_map bid = some buf ∧
      page_map.find
        (aio_complete (release s q bid blk true st md).2
          ⟨wst, md bid, wq⟩ blk true).page_map (md bid) = none) := by
  constructor
  · intro s ctx blk hnm
    have hf := filter_ne_of_not_mem s.reads (ctx, blk) hnm
    refine ⟨rfl, ?_, rfl, rfl, rfl, rfl, ?_, ?_⟩
    · simp only [aio_complete, if_true]
      exact hf
    · simp [aio_complete, page_repl.unpin]
    · intro b hb
      simp [aio_complete, page_repl.unpin, hb]
  · intro s q bid buf blk st wst wq md hres hne habs
    constructor
    · simpa [aio_complete, release] using hres
    · simpa [aio_complete, release] using habs

/-- Witness for C10 at concrete states. -/
theorem aio_complete_write_frame_inst :
    ((⟨0, 3, 1⟩, buf0) ∉ (initState 4).reads ∧
     ((aio_complete (initState 4) ⟨0, 3, 1⟩ buf0 true).page_map =
        (initState 4).page_map ∧
      (aio_complete (initState 4) ⟨0, 3, 1⟩ buf0 true).reads =
        (initState 4).reads ∧
      (aio_complete (initState 4) ⟨0, 3, 1⟩ buf0 true).live_bufs =
        (initState 4).live_bufs ∧
      (aio_complete (initState 4) ⟨0, 3, 1⟩ buf0 true).dirty_queue =
        (initState 4).dirty_queue ∧
      (aio_complete (initState 4) ⟨0, 3, 1⟩ buf0 true).next_buf_id =
        (initState 4).next_buf_id ∧
      (aio_complete (initState 4) ⟨0, 3, 1⟩ buf0 true).next_block_id =
        (initState 4).next_block_id ∧
      (aio_complete (initState 4) ⟨0, 3, 1⟩ buf0 true).pins 3 =
        (initState 4).pins 3 - 1 ∧
      (∀ b, b ≠ 3 →
        (aio_complete (initState 4) ⟨0, 3, 1⟩ buf0 true).pins b =
          (initState 4).pins b))) ∧
    (page_map.find sRes.page_map 7 = some buf0 ∧
     (9 : block_id_t) ≠ 7 ∧
     page_map.find sRes.page_map 9 = none ∧
     (page_map.find
        (aio_complete (release sRes 1 7 buf0 true 0 (fun _ => 9)).2
          ⟨0, 9, 1⟩ buf0 true).page_map 7 = some buf0 ∧
      page_map.find
        (aio_complete (release sRes 1 7 buf0 true 0 (fun _ => 9)).2
          ⟨0, 9, 1⟩ buf0 true).page_map 9 = none)) :=
  ⟨⟨by decide, aio_complete_write_frame.1 (initState 4) ⟨0, 3, 1⟩ buf0
      (by decide)⟩,
   ⟨by decide, by decide, by decide,
    aio_complete_write_frame.2 sRes 1 7 buf0 buf0 0 0 1 (fun _ => 9)
      (by decide) (by decide) (by decide)⟩⟩

/-- One step changes block `b`'s pin count by exactly its pin effect, provided
a decrement never runs on an unpinned block. -/
theorem step_pins (s : CacheState) (e : Event) (b : block_id_t)
    (h : pinEffect s e b = -1 → 0 < s.pins b) :
    (((step s e).pins b : Int)) = (s.pins b : Int) + pinEffect s e b := by
  cases e with
  | alloc tm =>
    by_cases hb : b = s.next_block_id
    · subst hb
      simp [step, allocate, serializer.gen_block_id, buffer_alloc.malloc,
            page_repl.pin, pinEffect]
    · have hb2 : ¬ s.next_block_id = b := fun hh => hb hh.symm
      simp [step, allocate, serializer.gen_block_id, buffer_alloc.malloc,
            page_repl.pin, pinEffect, hb, hb2]
  | acq tm bid st =>
    cases hfind : page_map.find s.page_map bid with
    | none =>
      simp [step, acquire, hfind, buffer_alloc.malloc, do_read, pinEffect]
    | some buf =>
      by_cases hb : b = bid
      · subst hb
        simp [step, acquire, hfind, page_repl.pin, pinEffect]
      · have hb2 : ¬ bid = b := fun hh => hb hh.symm
        simp [step, acquire, hfind, page_repl.pin, pinEffect, hb, hb2]
  | rel tm bid blk d st md =>
    cases d with
    | true => simp [step, release, pinEffect]
    | false =>
      by_cases hb : bid = b
      · subst hb
        have hp : 0 < s.pins bid := h (by simp [pinEffect])
        simp [step, release, page_repl.unpin, pinEffect]
        omega
      · have hb2 : ¬ b = bid := fun hh => hb hh.symm
        simp [step, release, page_repl.unpin, pinEffect, hb, hb2]
  | complete ctx blk w =>
    cases w with
    | true =>
      by_cases hb : ctx.block_id = b
      · have hp : 0 < s.pins b := h (by simp [pinEffect, hb])
        simp [step, aio_complete, page_repl.unpin, pinEffect, hb]
        omega
      · have hb2 : ¬ b = ctx.block_id := fun hh => hb hh.symm
        simp [step, aio_complete, page_repl.unpin, pinEffect, hb, hb2]
    | false =>
      by_cases hb : ctx.block_id = b
      · simp [step, aio_complete, page_repl.pin, pinEffect, hb]
      · have hb2 : ¬ b = ctx.block_id := fun hh => hb hh.symm
        simp [step, aio_complete, page_repl.pin, pinEffect, hb, hb2]

/-- Along a trace with no pin underflow for `b`, the final pin count of `b`
is the initial one plus the trace's net pin effect. -/
theorem run_pins (b : block_id_t) (es : List Event) :
    ∀ s : CacheState, noUnderflow b s es = true →
      ((run s es).pins b : Int) = (s.pins b : Int) + netPin b s es := by
  induction es with
  | nil =>
    intro s h
    simp [run, netPin]
  | cons e es ih =>
    intro s h
    rw [noUnderflow, Bool.and_eq_true] at h
    obtain ⟨h1, h2⟩ := h
    have h1p : pinEffect s e b = -1 → 0 < s.pins b := by
      intro hpe
      rw [if_pos hpe] at h1
      exact of_decide_eq_true h1
    have hs := step_pins s e b h1p
    have hr : run s (e :: es) = run (step s e) es := rfl
    have hn : netPin b s (e :: es) =
        pinEffect s e b + netPin b (step s e) es := rfl
    rw [hr, hn, ih (step s e) h2, hs]
    ring

/-- Claim C3: a block acquired resident and released dirty stays pinned from
the release until the corresponding write completion, at which point its pin
count drops to zero; and in general, along any trace of allocate, acquire,
release and completion events that never unpins a block below zero, the
block's final pin count equals its initial count plus the trace's net pin
effect — in particular it returns to zero once the trace's pins and unpins
for the block balance (every holder has released it and all its I/O has
completed). -/
theorem pin_balance :
    (∀ (s : CacheState) (q : transaction_t) (bid : block_id_t)
       (buf blk wbuf : buffer_t) (st st2 wst : Nat) (wq : event_queue_t)
       (md : block_id_t → block_id_t),
      page_map.find s.page_map bid = some buf →
      s.pins bid = 0 →
      (acquire s q bid st).2.pins bid = 1 ∧
      (release (acquire s q bid st).2 q bid blk true st2 md).2.pins bid
        = 1 ∧
      (aio_complete (release (acquire s q bid st).2 q bid blk true st2 md).2
        ⟨wst, bid, wq⟩ wbuf true).pins bid = 0) ∧
    (∀ (s : CacheState) (es : List Event) (b : block_id_t),
      noUnderflow b s es = true →
      (((run s es).pins b : Int) = (s.pins b : Int) + netPin b s es) ∧
      (netPin b s es = 0 → s.pins b = 0 → (run s es).pins b = 0)) := by
  constructor
  · intro s q bid buf blk wbuf st st2 wst wq md hres hpin
    refine ⟨?_, ?_, ?_⟩
    · simp [acquire, hres, page_repl.pin, hpin]
    · simp [acquire, hres, release, page_repl.pin, hpin]
    · simp [acquire, hres, release, aio_complete, page_repl.pin,
            page_repl.unpin, hpin]
  · intro s es b h
    refine ⟨run_pins b es s h, ?_⟩
    intro hnet hz
    have := run_pins b es s h
    rw [hnet, hz] at this
    omega

/-- Witness for C3: the dirty-then-flush scenario at a concrete resident
state, and a concrete balanced acquire/release trace. -/
theorem pin_balance_inst :
    (page_map.find sRes.page_map 7 = some buf0 ∧
     sRes.pins 7 = 0 ∧
     ((acquire sRes 1 7 0).2.pins 7 = 1 ∧
      (release (acquire sRes 1 7 0).2 1 7 buf0 true 0 (fun _ => 9)).2.pins 7
        = 1 ∧
      (aio_complete
        (release (acquire sRes 1 7 0).2 1 7 buf0 true 0 (fun _ => 9)).2
        ⟨0, 7, 1⟩ buf0 true).pins 7 = 0)) ∧
    (noUnderflow 7 sRes trace0 = true ∧
     netPin 7 sRes trace0 = 0 ∧
     (run sRes trace0).pins 7 = 0) := by
  have hnu : noUnderflow 7 sRes trace0 = true := by decide
  refine ⟨⟨by decide, by decide, ?_⟩, hnu, by decide, ?_⟩
  · exact pin_balance.1 sRes 1 7 buf0 buf0 buf0 0 0 0 1 (fun _ => 9)
      (by decide) (by decide)
  · exact (pin_balance.2 sRes trace0 7 hnu).2 (by decide) (by decide)

end MirroredCache
